import Mathlib

/-!
Verification development for the firerunner CI orchestrator.

Shallow embedding of the job lifecycle engine: the scheduler core
(`pkg/scheduler/scheduler.go`), the webhook ingress and security envelope
(`pkg/gitlab/webhook.go`, `webhook_security.go`), the job monitor
(`monitor.go`), the VM manager (`manager.go`) and the tag parser
(`ParseVMRequirements` in `types.go`).

Machine integers are modelled as `Nat`/`Int` with explicit reduction
modulo `2^32` where the source relies on 32-bit wrap-around (SHA-256).
Byte strings are `List Nat` (each element < 256); Go strings are modelled
at the character level, which coincides with the byte level on the ASCII
data the handlers compare.
-/

namespace Firerunner

/-! ## Bytes, 32-bit words, hex encoding -/

/-- Truncate to a 32-bit word, `n % 2^32`. -/
def w32 (n : Nat) : Nat := n % 4294967296

/-- 32-bit rotate right by `k`. -/
def rotr (k n : Nat) : Nat := w32 ((n >>> k) ||| (n <<< (32 - k)))

/-- Bytes of a string, character-level (faithful to Go `[]byte` on ASCII). -/
def strBytes (s : String) : List Nat := s.data.map Char.toNat

/-- `k` bytes of `n`, big-endian. -/
def natToBytesBE : Nat → Nat → List Nat
  | 0, _ => []
  | k + 1, n => natToBytesBE k (n >>> 8) ++ [n % 256]

/-- Lowercase hex digit. -/
def hexDigit (n : Nat) : Char :=
  if n < 10 then Char.ofNat (48 + n) else Char.ofNat (87 + n)

/-- Lowercase hex encoding of a byte list (Go `hex.EncodeToString`). -/
def bytesToHex (bs : List Nat) : String :=
  String.mk (bs.foldr (fun b acc => hexDigit ((b >>> 4) % 16) :: hexDigit (b % 16) :: acc) [])

/-! ## SHA-256 (FIPS 180-4), used by the webhook HMAC verification -/

/-- SHA-256 round constants (FIPS 180-4, written in decimal). -/
def sha256K : List Nat :=
  [1116352408, 1899447441, 3049323471, 3921009573,
   961987163, 1508970993, 2453635748, 2870763221,
   3624381080, 310598401, 607225278, 1426881987,
   1925078388, 2162078206, 2614888103, 3248222580,
   3835390401, 4022224774, 264347078, 604807628,
   770255983, 1249150122, 1555081692, 1996064986,
   2554220882, 2821834349, 2952996808, 3210313671,
   3336571891, 3584528711, 113926993, 338241895,
   666307205, 773529912, 1294757372, 1396182291,
   1695183700, 1986661051, 2177026350, 2456956037,
   2730485921, 2820302411, 3259730800, 3345764771,
   3516065817, 3600352804, 4094571909, 275423344,
   430227734, 506948616, 659060556, 883997877,
   958139571, 1322822218, 1537002063, 1747873779,
   1955562222, 2024104815, 2227730452, 2361852424,
   2428436474, 2756734187, 3204031479, 3329325298]

/-- SHA-256 working state: eight 32-bit words. -/
structure Hs where
  a : Nat
  b : Nat
  c : Nat
  d : Nat
  e : Nat
  f : Nat
  g : Nat
  h : Nat
deriving DecidableEq, Repr

/-- SHA-256 initial hash value (FIPS 180-4, written in decimal). -/
def sha256H0 : Hs :=
  ⟨1779033703, 3144134277, 1013904242, 2773480762, 1359893119, 2600822924, 528734635, 1541459225⟩

def bigSigma0 (x : Nat) : Nat := (rotr 2 x) ^^^ (rotr 13 x) ^^^ (rotr 22 x)
def bigSigma1 (x : Nat) : Nat := (rotr 6 x) ^^^ (rotr 11 x) ^^^ (rotr 25 x)
def smallSigma0 (x : Nat) : Nat := (rotr 7 x) ^^^ (rotr 18 x) ^^^ (x >>> 3)
def smallSigma1 (x : Nat) : Nat := (rotr 17 x) ^^^ (rotr 19 x) ^^^ (x >>> 10)
def chFn (x y z : Nat) : Nat := (x &&& y) ^^^ ((x ^^^ 0xffffffff) &&& z)
def majFn (x y z : Nat) : Nat := (x &&& y) ^^^ (x &&& z) ^^^ (y &&& z)

/-- Big-endian 32-bit words from bytes. -/
def bytesToWords : List Nat → List Nat
  | b0 :: b1 :: b2 :: b3 :: rest =>
      ((b0 <<< 24) ||| (b1 <<< 16) ||| (b2 <<< 8) ||| b3) :: bytesToWords rest
  | _ => []

/-- Extend the 16-word block to the 64-word message schedule. -/
def extendSchedule (w16 : List Nat) : List Nat :=
  (List.range 48).foldl
    (fun w i =>
      w ++ [w32 (smallSigma1 (w.getD (i + 14) 0) + w.getD (i + 9) 0 +
                 smallSigma0 (w.getD (i + 1) 0) + w.getD i 0)])
    w16

/-- One SHA-256 compression round; `kw` pairs the round constant with the schedule word. -/
def sha256Round (s : Hs) (kw : Nat × Nat) : Hs :=
  let t1 := w32 (s.h + bigSigma1 s.e + chFn s.e s.f s.g + kw.1 + kw.2)
  let t2 := w32 (bigSigma0 s.a + majFn s.a s.b s.c)
  ⟨w32 (t1 + t2), s.a, s.b, s.c, w32 (s.d + t1), s.e, s.f, s.g⟩

/-- Compress one 64-byte block into the hash state. -/
def sha256Compress (h : Hs) (block : List Nat) : Hs :=
  let w := extendSchedule (bytesToWords block)
  let s := (sha256K.zip w).foldl sha256Round h
  ⟨w32 (h.a + s.a), w32 (h.b + s.b), w32 (h.c + s.c), w32 (h.d + s.d),
   w32 (h.e + s.e), w32 (h.f + s.f), w32 (h.g + s.g), w32 (h.h + s.h)⟩

/-- SHA-256 padding: 0x80, zeros to 56 mod 64, then the 64-bit big-endian bit length. -/
def sha256Pad (msg : List Nat) : List Nat :=
  let z := (119 - msg.length % 64) % 64
  msg ++ [0x80] ++ List.replicate z 0 ++ natToBytesBE 8 (msg.length * 8)

/-- Fold the compression over consecutive 64-byte blocks (fuel-indexed; the
fuel is the byte length, an upper bound on the block count). -/
def sha256Blocks : Nat → Hs → List Nat → Hs
  | 0, h, _ => h
  | fuel + 1, h, bs =>
      if bs.isEmpty then h
      else sha256Blocks fuel (sha256Compress h (bs.take 64)) (bs.drop 64)

/-- SHA-256 digest (32 bytes) of a byte list. -/
def sha256 (msg : List Nat) : List Nat :=
  let padded := sha256Pad msg
  let s := sha256Blocks padded.length sha256H0 padded
  natToBytesBE 4 s.a ++ natToBytesBE 4 s.b ++ natToBytesBE 4 s.c ++ natToBytesBE 4 s.d ++
  natToBytesBE 4 s.e ++ natToBytesBE 4 s.f ++ natToBytesBE 4 s.g ++ natToBytesBE 4 s.h

/-- HMAC-SHA256 (RFC 2104), as Go `hmac.New(sha256.New, key)`. -/
def hmacSha256 (key msg : List Nat) : List Nat :=
  let key := if key.length > 64 then sha256 key else key
  let key := key ++ List.replicate (64 - key.length) 0
  let ipadKey := key.map (fun b => b ^^^ 0x36)
  let opadKey := key.map (fun b => b ^^^ 0x5c)
  sha256 (opadKey ++ sha256 (ipadKey ++ msg))

/-- Hex HMAC-SHA256 of a message string under a secret string, exactly the
value `hex.EncodeToString(mac.Sum(nil))` computed by both webhook handlers. -/
def hmacSha256Hex (secret body : String) : String :=
  bytesToHex (hmacSha256 (strBytes secret) (strBytes body))

/-! ## Go string primitives used by the parser and handlers -/

/-- `strings.Contains(s, pat)`: `pat` occurs as a contiguous substring of `s`. -/
def goContains (s pat : String) : Bool :=
  (List.range (s.data.length + 1)).any (fun i => pat.data.isPrefixOf (s.data.drop i))

/-- `strings.HasSuffix(s, pat)`. -/
def goHasSuffixFn (s pat : String) : Bool := pat.data.isSuffixOf s.data

/-- `strings.TrimSuffix(s, pat)`. -/
def goTrimSuffix (s pat : String) : String :=
  if goHasSuffixFn s pat then String.mk (s.data.take (s.data.length - pat.data.length)) else s

/-- `strings.Split(s, "-")`: split on every dash, keeping empty segments. -/
def splitOnDash (s : String) : List String :=
  (s.data.foldr
    (fun ch acc =>
      match acc with
      | cur :: rest => if ch = '-' then [] :: cur :: rest else (ch :: cur) :: rest
      | [] => [[ch]])
    [[]]).map String.mk

/-- `fmt.Sscanf(s, "%d", &result)` from `parseInt` in the source: skip leading
spaces, optional sign, then a leading decimal run; error when no digit. -/
def parseIntGo (s : String) : Option Int :=
  let cs := s.data.dropWhile (fun c => c = ' ')
  let signAndRest : Bool × List Char :=
    match cs with
    | '-' :: rest => (true, rest)
    | '+' :: rest => (false, rest)
    | _ => (false, cs)
  let ds := signAndRest.2.takeWhile Char.isDigit
  if ds.isEmpty then none
  else
    let v : Nat := ds.foldl (fun acc c => acc * 10 + (c.toNat - 48)) 0
    some (if signAndRest.1 then -(v : Int) else (v : Int))

/-! ## Tag parser (`ParseVMRequirements`, types.go) -/

/-- The inner loop of `ParseVMRequirements` over the dash-separated segments
of one tag: a segment with suffix `cpu` sets the vCPU count, a non-first
segment with suffix `gb` sets the memory to `N*1024` MB. -/
def parseTagSegments (vm : Int × Int) (parts : List String) : Int × Int :=
  parts.enum.foldl
    (fun vm ip =>
      let i := ip.1
      let part := ip.2
      let vm :=
        if goHasSuffixFn part "cpu" then
          match parseIntGo (goTrimSuffix part "cpu") with
          | some cpu => (cpu, vm.2)
          | none => vm
        else vm
      if goHasSuffixFn part "gb" ∧ i > 0 then
        match parseIntGo (goTrimSuffix part "gb") with
        | some mem => (vm.1, mem * 1024)
        | none => vm
      else vm)
    vm

/-- One iteration of `ParseVMRequirements`'s outer loop: a tag is parsed only
when it contains both the substring `cpu` and the substring `gb`. -/
def parseTagStep (vm : Int × Int) (tag : String) : Int × Int :=
  if goContains tag "cpu" ∧ goContains tag "gb" then parseTagSegments vm (splitOnDash tag)
  else vm

/-- `ParseVMRequirements(tags)`: defaults vCPU=2, memory=4096 MB. -/
def parseVMRequirements (tags : List String) : Int × Int :=
  tags.foldl parseTagStep (2, 4096)

/-! ## Webhook request model

A request is modelled by the fields the two handlers read. A header that is
absent reads as `""`, exactly the behaviour of Go's `Header.Get`. -/

structure Request where
  method : String
  hasTLS : Bool
  remoteAddr : String
  contentLength : Int
  gitlabToken : String
  gitlabSignature : String
  hubSignature256 : String
  gitlabEvent : String
  body : String
deriving DecidableEq, Repr

/-! ## Basic webhook handler (`pkg/gitlab/webhook.go`)

The event dispatch (`processJobEvent` / `processPipelineEvent`) JSON-decodes
the body and may hand the event to the scheduler, which is the only way a
request can alter the job registry. The two dispatch functions are abstract
parameters over an abstract registry type so that theorems about this
handler quantify over every possible dispatch behaviour. -/

/-- `verifyHMAC` (webhook.go): `hmac.Equal(signature, hex(HMAC-SHA256(secret, body)))`.
`hmac.Equal` is equality of the byte strings (computed in constant time). -/
def verifyHMAC (secret body signature : String) : Bool :=
  signature = hmacSha256Hex secret body

/-- `WebhookHandler.verifySignature` (webhook.go): with no configured secret
verification is skipped; otherwise the `X-Gitlab-Token` header must equal the
secret, falling back to an `X-Gitlab-Signature` HMAC check when that header
is present. -/
def verifySignature (secret : String) (r : Request) : Bool :=
  if secret = "" then true
  else if r.gitlabToken = "" then false
  else if r.gitlabToken = secret then true
  else if r.gitlabSignature ≠ "" then verifyHMAC secret r.body r.gitlabSignature
  else false

/-- `WebhookHandler.processEvent` (webhook.go): dispatch on the event type;
unknown event types are ignored with success. -/
def processEvent (jobDispatch pipelineDispatch : String → α → Except String α)
    (eventType body : String) (reg : α) : Except String α :=
  if eventType = "Job Hook" then jobDispatch body reg
  else if eventType = "Pipeline Hook" then pipelineDispatch body reg
  else .ok reg

/-- The tail of `WebhookHandler.ServeHTTP` after signature verification:
event-type check, then dispatch (500 on dispatch error, else 200). -/
def serveAfterVerify (jobDispatch pipelineDispatch : String → α → Except String α)
    (reg : α) (r : Request) : Nat × α :=
  if r.gitlabEvent = "" then (400, reg)
  else
    match processEvent jobDispatch pipelineDispatch r.gitlabEvent r.body reg with
    | .error _ => (500, reg)
    | .ok reg2 => (200, reg2)

/-- `WebhookHandler.ServeHTTP` (webhook.go): method check (405), signature
check (401), then event processing. Returns the HTTP status and the registry
after the request (body reads are modelled as succeeding). -/
def serveHTTP (secret : String) (jobDispatch pipelineDispatch : String → α → Except String α)
    (reg : α) (r : Request) : Nat × α :=
  if r.method ≠ "POST" then (405, reg)
  else if ¬ verifySignature secret r then (401, reg)
  else serveAfterVerify jobDispatch pipelineDispatch reg r

/-! ## Hardened handler (`SecureWebhookHandler`, webhook_security.go) -/

structure SecurityConfig where
  secret : String
  requireSecret : Bool
  maxBodySize : Int
  rateLimitPerMinute : Nat
  allowedIPs : List String
  requireSSL : Bool
deriving DecidableEq, Repr

/-- `DefaultSecurityConfig(secret)`. -/
def defaultSecurityConfig (secret : String) : SecurityConfig :=
  { secret := secret
    requireSecret := true
    maxBodySize := 10 * 1024 * 1024
    rateLimitPerMinute := 60
    allowedIPs := []
    requireSSL := false }

/-- `subtle.ConstantTimeCompare` result: 1 iff the byte strings are equal
(lengths included), else 0; every byte is examined when lengths agree. -/
def constantTimeCompare (a b : List Char) : Nat :=
  if a.length ≠ b.length then 0 else if a = b then 1 else 0

/-- Strip the port from `RemoteAddr`: cut at the last `':'` if any
(`isIPAllowed`'s backwards scan). -/
def stripPort (addr : String) : String :=
  match addr.data.enum.foldl (fun acc ic => if ic.2 = ':' then some ic.1 else acc) none with
  | some i => String.mk (addr.data.take i)
  | none => addr

/-- `SecureWebhookHandler.isIPAllowed`: empty allow-list admits everyone,
otherwise the peer address (port stripped) must appear verbatim. -/
def isIPAllowed (allowedIPs : List String) (remoteAddr : String) : Bool :=
  if allowedIPs.isEmpty then true
  else allowedIPs.contains (stripPort remoteAddr)

/-- `SecureWebhookHandler.checkRateLimit`: per-peer counter in a fixed
one-minute window (`minuteElapsed` abstracts `time.Since(lastReset) > time.Minute`).
Returns whether the request is admitted together with the updated counters. -/
def checkRateLimit (limit : Nat) (minuteElapsed : Bool)
    (counts : List (String × Nat)) (addr : String) : Bool × List (String × Nat) :=
  let counts := if minuteElapsed then [] else counts
  let c := ((counts.find? (fun p => p.1 == addr)).map (·.2)).getD 0 + 1
  let counts2 := (addr, c) :: counts.filter (fun p => p.1 != addr)
  (c ≤ limit, counts2)

/-- `SecureWebhookHandler.verifyHMACSHA256`: optional `sha256=` stripping,
then a constant-time comparison against the hex HMAC of the body. -/
def secureVerifyHMACSHA256 (secret body signature : String) : Bool :=
  let sig := if signature.data.length > 7 ∧ signature.data.take 7 = "sha256=".data
             then String.mk (signature.data.drop 7) else signature
  constantTimeCompare sig.data (hmacSha256Hex secret body).data = 1

/-- `SecureWebhookHandler.verifySignature`: a present `X-Gitlab-Token` is
compared constant-time against the secret (no HMAC fallback); otherwise a
present `X-Hub-Signature-256` is verified as an HMAC; otherwise reject. -/
def secureVerifySignature (secret : String) (r : Request) : Bool :=
  if r.gitlabToken ≠ "" then constantTimeCompare r.gitlabToken.data secret.data = 1
  else if r.hubSignature256 ≠ "" then secureVerifyHMACSHA256 secret r.body r.hubSignature256
  else false

/-- `SecureWebhookHandler.ServeHTTP` (webhook_security.go): TLS, IP
allow-list, rate limit, body size and secret checks, then delegation to the
basic handler (which re-checks method, secret and event type). Returns the
status, the registry and the updated rate-limit counters. -/
def secureServeHTTP (cfg : SecurityConfig) (minuteElapsed : Bool)
    (counts : List (String × Nat))
    (jobDispatch pipelineDispatch : String → α → Except String α)
    (reg : α) (r : Request) : Nat × α × List (String × Nat) :=
  if cfg.requireSSL ∧ ¬ r.hasTLS then (403, reg, counts)
  else if ¬ isIPAllowed cfg.allowedIPs r.remoteAddr then (403, reg, counts)
  else
    let rl := checkRateLimit cfg.rateLimitPerMinute minuteElapsed counts r.remoteAddr
    if ¬ rl.1 then (429, reg, rl.2)
    else if r.contentLength > cfg.maxBodySize then (413, reg, rl.2)
    else if cfg.requireSecret ∧ cfg.secret ≠ "" ∧ ¬ secureVerifySignature cfg.secret r then
      (401, reg, rl.2)
    else
      let sr := serveHTTP cfg.secret jobDispatch pipelineDispatch reg r
      (sr.1, sr.2, rl.2)

/-! ## Comparison-cost model for the secret checks

Go's `==` on strings may stop at the first differing byte; the number of
byte comparisons it performs is the length of the longest common prefix
plus one (after an initial length check). `subtle.ConstantTimeCompare` and
`hmac.Equal` examine every byte once the lengths agree, so their work
depends only on the lengths of the two inputs. -/

/-- Byte comparisons of a short-circuit scan until the first mismatch. -/
def scanEqCost : List Char → List Char → Nat
  | a :: as, b :: bs => if a = b then 1 + scanEqCost as bs else 1
  | _, _ => 0

/-- Cost of Go's `==` on strings: a length check, then a short-circuit scan. -/
def goStringEqCost (a b : List Char) : Nat :=
  if a.length ≠ b.length then 0 else scanEqCost a b

/-- Cost of the token comparison `receivedToken == h.secret` at
webhook.go line 105. -/
def tokenCompareCost (secret token : String) : Nat :=
  goStringEqCost token.data secret.data

/-- Cost of `subtle.ConstantTimeCompare`: all bytes when lengths agree. -/
def constantTimeCompareCost (a b : List Char) : Nat :=
  if a.length ≠ b.length then 0 else a.length

/-- Cost of the hardened handler's token comparison
`subtle.ConstantTimeCompare([]byte(token), []byte(secret))`. -/
def secureTokenCompareCost (secret token : String) : Nat :=
  constantTimeCompareCost token.data secret.data

/-- Cost of the digest comparison inside `verifyHMAC` (webhook.go), which
uses `hmac.Equal`, a constant-time comparison. -/
def hmacEqualCost (a b : List Char) : Nat :=
  constantTimeCompareCost a b

/-! ## Job monitor (`JobMonitor.WaitForJobCompletion`, monitor.go)

The loop's interaction with the environment is a sequence of observations:
at each iteration the `select` either sees a cancelled context (with the
context's error) or a poll answer from the CI platform, which is an RPC
error or a job status. The loop's value is `none` while it is still
polling, and `some (jobStatus?, error?)` when it returns — a GitLab job is
represented by its status string, the only field the loop inspects. -/

inductive PollStep where
  | ctxDone (e : String)
  | pollErr
  | poll (status : String)
deriving DecidableEq, Repr

/-- `isJobComplete`: terminal CI statuses. -/
def isJobComplete (status : String) : Bool :=
  ["success", "failed", "canceled", "skipped"].contains status

/-- `isJobFailed`: statuses reported with an attached error. -/
def isJobFailed (status : String) : Bool :=
  ["failed", "canceled"].contains status

/-- `WaitForJobCompletion` over a finite observation sequence. -/
def waitForJobCompletion : List PollStep → Option (Option String × Option String)
  | [] => none
  | .ctxDone e :: _ => some (none, some e)
  | .pollErr :: rest => waitForJobCompletion rest
  | .poll st :: rest =>
      if isJobComplete st then some (some st, none)
      else if isJobFailed st then some (some st, some ("job failed with status: " ++ st))
      else waitForJobCompletion rest

/-! ## VM manager (`Manager`, manager.go)

The VM registry is a Go map keyed by VM ID: insertion overwrites the key,
deletion removes it.  The flintlock backend's delete RPC outcome is the
environment parameter `deleteOk`. -/

structure MicroVM where
  id : String
  ns : String
  state : String
  ipAddress : String
deriving DecidableEq, Repr

/-- Map lookup `m.vms[vmID]` (`Manager.getVM`). -/
def lookupVM (vms : List (String × MicroVM)) (vmID : String) : Option MicroVM :=
  (vms.find? (fun p => p.1 == vmID)).map (·.2)

/-- Map insert `m.vms[vm.ID] = vm` (`Manager.trackVM`). -/
def trackVM (vms : List (String × MicroVM)) (vm : MicroVM) : List (String × MicroVM) :=
  (vm.id, vm) :: vms.filter (fun p => p.1 != vm.id)

/-- Map delete `delete(m.vms, vmID)` (`Manager.untrackVM`). -/
def untrackVM (vms : List (String × MicroVM)) (vmID : String) : List (String × MicroVM) :=
  vms.filter (fun p => p.1 != vmID)

/-- `Manager.DestroyVM`: local lookup (error when unknown), backend delete
(error leaves the registry untouched), then untrack. -/
def destroyVM (deleteOk : Bool) (vms : List (String × MicroVM)) (vmID : String) :
    Except String Unit × List (String × MicroVM) :=
  match lookupVM vms vmID with
  | none => (.error ("VM " ++ vmID ++ " not found"), vms)
  | some _ =>
      if deleteOk then (.ok (), untrackVM vms vmID)
      else (.error "failed to delete microVM", vms)

/-! ## Scheduler core (`pkg/scheduler/scheduler.go`)

`Job` carries the fields the lifecycle touches.  Go zero time stamps are
`none`; a stamped time is `some t` for an abstract instant `t`. -/

structure Job where
  id : Int
  projectID : Int
  status : String
  tags : List String
  vcpu : Int
  memoryMB : Int
  startedAt : Option Nat
  finishedAt : Option Nat
  vmid : String
  vm : Option MicroVM
  runnerID : Int
  err : Option String
deriving DecidableEq, Repr

/-- The mutation `Scheduler.updateJobStatus` applies to the job object it
found in the registry: unconditional status write; `startedAt` is stamped
only from the zero value, `finishedAt` is stamped on every terminal write.
The registry lookup that selects the object lives in
`schedulerUpdateJobStatus` below; the worker's `processJob` applies this
mutation to the job object the worker holds, which is the object the
registry maps to the build ID unless a duplicate `ScheduleJob` has replaced
that entry in the meantime (see C2). -/
def updateJobStatus (now : Nat) (j : Job) (status : String) : Job :=
  let j := { j with status := status }
  if status = "running" ∧ j.startedAt = none then { j with startedAt := some now }
  else if status = "finished" ∨ status = "failed" then { j with finishedAt := some now }
  else j

/-- Registry lookup `s.jobs[jobID]` for the job map. -/
def lookupJob (jobs : List (Int × Job)) (jobID : Int) : Option Job :=
  (jobs.find? (fun p => p.1 == jobID)).map (·.2)

/-- `Scheduler.updateJobStatus` in full (scheduler.go lines 262-273):
`if job, exists := s.jobs[jobID]; exists` — the status write and the
timestamp stamping are applied to whatever object the registry currently
holds under the build ID; an absent ID is a no-op.  The in-place mutation
of the found object is modelled by replacing the record stored under the
(unchanged) key. -/
def schedulerUpdateJobStatus (now : Nat) (jobs : List (Int × Job)) (jobID : Int)
    (status : String) : List (Int × Job) :=
  match lookupJob jobs jobID with
  | none => jobs
  | some j => (jobID, updateJobStatus now j status) :: jobs.filter (fun p => p.1 != jobID)

/-- The world the worker mutates besides the job record: the VM manager's
registry and the set of runner registrations held by the CI platform. -/
structure World where
  vms : List (String × MicroVM)
  runners : List Int
deriving DecidableEq, Repr

/-- Outcomes of the worker's three remote interactions plus the cleanup
RPC outcomes, fixed by the environment for one `processJob` execution. -/
structure WorkerEnv where
  createResult : Except String MicroVM
  registerResult : Except String Int
  monitorResult : Except String String
  unregisterOk : Bool
  deleteOk : Bool
deriving Repr

/-- `Manager.CreateVM` as the worker sees it: on success the returned VM is
tracked in the registry. -/
def managerCreateVM (env : WorkerEnv) (w : World) : Except String MicroVM × World :=
  match env.createResult with
  | .error e => (.error e, w)
  | .ok vm => (.ok vm, { w with vms := trackVM w.vms vm })

/-- `Worker.cleanupVM`: unregister the runner when one was recorded (errors
logged only), then destroy the VM when one was recorded (errors logged
only). -/
def cleanupVM (env : WorkerEnv) (w : World) (j : Job) : World :=
  let w1 :=
    if j.runnerID > 0 then
      if env.unregisterOk then { w with runners := w.runners.filter (fun r => r != j.runnerID) }
      else w
    else w
  if j.vmid = "" then w1
  else { w1 with vms := (destroyVM env.deleteOk w1.vms j.vmid).2 }

/-- `Worker.waitForJobCompletion` (scheduler.go): a monitor error or a
non-`success` terminal status stamps `job.err`. -/
def workerWait (env : WorkerEnv) (j : Job) : Job :=
  match env.monitorResult with
  | .error e => { j with err := some e }
  | .ok st => if st ≠ "success" then { j with err := some ("job failed with status: " ++ st) } else j

/-- `Worker.processJob`: the per-job state machine.  Returns the final job
record, the final world, and the sequence of statuses passed to
`updateJobStatus` (the times `1` and `2` order the stamps). -/
def processJob (env : WorkerEnv) (w : World) (j0 : Job) : Job × World × List String :=
  let j1 := updateJobStatus 1 j0 "running"
  match managerCreateVM env w with
  | (.error e, w1) =>
      ({ updateJobStatus 2 j1 "failed" with err := some e }, w1, ["running", "failed"])
  | (.ok vm, w1) =>
      let j2 := { j1 with vm := some vm, vmid := vm.id }
      match env.registerResult with
      | .error e =>
          let j3 := { updateJobStatus 2 j2 "failed" with
                        err := some ("failed to register runner: " ++ e) }
          (j3, cleanupVM env w1 j3, ["running", "failed"])
      | .ok rid =>
          let j3 := { j2 with runnerID := rid }
          let w2 := { w1 with runners := rid :: w1.runners }
          let j4 := workerWait env j3
          let w3 := cleanupVM env w2 j4
          if j4.err ≠ none then
            (updateJobStatus 2 j4 "failed", w3, ["running", "failed"])
          else
            (updateJobStatus 2 j4 "finished", w3, ["running", "finished"])

/-! ## `Scheduler.ScheduleJob`

The job registry is a Go map keyed by the build ID.  Whether the bounded
queue accepts the job within the 5-second window is the environment
parameter `enqueueOk`. -/

structure JobEvent where
  buildID : Int
  projectID : Int
  buildTags : List String
  buildStatus : String
deriving DecidableEq, Repr

/-- Map insert (`Scheduler.trackJob`). -/
def trackJob (jobs : List (Int × Job)) (j : Job) : List (Int × Job) :=
  (j.id, j) :: jobs.filter (fun p => p.1 != j.id)

/-- Map delete (`Scheduler.untrackJob`). -/
def untrackJob (jobs : List (Int × Job)) (jobID : Int) : List (Int × Job) :=
  jobs.filter (fun p => p.1 != jobID)

/-- The fresh job built by `ScheduleJob`. -/
def newJob (event : JobEvent) : Job :=
  let vm := parseVMRequirements event.buildTags
  { id := event.buildID, projectID := event.projectID, status := "queued"
    tags := event.buildTags, vcpu := vm.1, memoryMB := vm.2
    startedAt := none, finishedAt := none, vmid := "", vm := none
    runnerID := 0, err := none }

/-- `Scheduler.ScheduleJob`: track the job, then enqueue; when the queue
stays full for 5 s, cancel the job's token, untrack it and fail.  Returns
the call's result, the registry, the queue (of job IDs) and whether the
cancel token was invoked. -/
def scheduleJob (enqueueOk : Bool) (jobs : List (Int × Job)) (queue : List Int)
    (event : JobEvent) : Except String Unit × List (Int × Job) × List Int × Bool :=
  let job := newJob event
  let jobs1 := trackJob jobs job
  if enqueueOk then (.ok (), jobs1, queue ++ [job.id], false)
  else
    (.error ("job queue is full, cannot schedule job " ++ toString job.id),
     untrackJob jobs1 job.id, queue, true)

/-- Decidable equality for `Except`, for evaluating results on concrete inputs. -/
instance {e a : Type} [DecidableEq e] [DecidableEq a] : DecidableEq (Except e a) := fun x y =>
  match x, y with
  | .error u, .error v =>
      if h : u = v then isTrue (by rw [h]) else isFalse (fun hh => h (Except.error.inj hh))
  | .ok u, .ok v =>
      if h : u = v then isTrue (by rw [h]) else isFalse (fun hh => h (Except.ok.inj hh))
  | .error _, .ok _ => isFalse (fun hh => Except.noConfusion hh)
  | .ok _, .error _ => isFalse (fun hh => Except.noConfusion hh)

/-! ## Registry helper lemmas -/

/-- After a map delete, the deleted key is absent. -/
theorem lookupVM_untrack_self (vms : List (String × MicroVM)) (vmID : String) :
    lookupVM (untrackVM vms vmID) vmID = none := by
  unfold lookupVM untrackVM
  rw [Option.map_eq_none', List.find?_eq_none]
  intro p hp
  have := (List.mem_filter.mp hp).2
  simpa [bne_iff_ne] using this

/-- Pointwise-equal predicates find the same element. -/
theorem find?_ext {α : Type} (p q : α → Bool) (h : ∀ a, p a = q a) :
    ∀ l : List α, l.find? p = l.find? q := by
  intro l
  induction l with
  | nil => rfl
  | cons a l ih => rw [List.find?_cons, List.find?_cons, h a, ih]

/-- A map delete does not touch other keys. -/
theorem lookupVM_untrack_ne (vms : List (String × MicroVM)) (vmID k : String)
    (hk : k ≠ vmID) : lookupVM (untrackVM vms vmID) k = lookupVM vms k := by
  unfold lookupVM untrackVM
  rw [List.find?_filter]
  congr 1
  apply find?_ext
  intro p
  by_cases hp : p.1 = k
  · simp [hp, hk]
  · simp [hp]

/-- An element never survives filtering by `!=` itself. -/
theorem not_mem_filter_bne_self (l : List Int) (x : Int) :
    x ∉ l.filter (fun r => r != x) := by
  intro h
  have := (List.mem_filter.mp h).2
  simp [bne_iff_ne] at this

/-- Filtering by a predicate every element satisfies is the identity. -/
theorem filter_bne_eq_self (jobs : List (Int × Job)) (i : Int)
    (h : ∀ p ∈ jobs, p.1 ≠ i) : jobs.filter (fun p => p.1 != i) = jobs := by
  apply List.filter_eq_self.mpr
  intro p hp
  simpa [bne_iff_ne] using h p hp

/-! ## C4 — tag parser -/

/-- A tag that does not contain both substrings `cpu` and `gb` leaves the
accumulated requirements unchanged. -/
theorem parseTagStep_skip {tag : String}
    (h : ¬(goContains tag "cpu" = true ∧ goContains tag "gb" = true))
    (vm : Int × Int) : parseTagStep vm tag = vm := by
  unfold parseTagStep
  exact if_neg h

/-- Folding over tags none of which contains both substrings keeps the seed. -/
theorem foldl_parseTagStep_skip (tags : List String) (vm : Int × Int)
    (h : ∀ tag ∈ tags, ¬(goContains tag "cpu" = true ∧ goContains tag "gb" = true)) :
    tags.foldl parseTagStep vm = vm := by
  induction tags generalizing vm with
  | nil => rfl
  | cons t rest ih =>
      rw [List.foldl_cons, parseTagStep_skip (h t (by simp))]
      exact ih vm (fun q hq => h q (by simp [hq]))

/-- Claim C4 (counterexample). The claim asserts that a tag containing a
valid `<N>cpu` segment determines the vCPU count even when the tag has no
`gb` segment; but `ParseVMRequirements` only examines tags that contain
both the substring `cpu` and the substring `gb`, so `"firecracker-4cpu"`
is skipped entirely and the defaults are returned. -/
theorem C4_counterexample :
    parseVMRequirements ["firecracker-4cpu"] = (2, 4096) ∧
    parseVMRequirements ["firecracker-4cpu"] ≠ (4, 4096) := by decide

/-- Claim C4 (amended): the parser considers only tags containing both the
substring `cpu` and the substring `gb`; within such a tag it splits on `-`,
a `cpu`-suffixed segment sets the vCPU count and a non-first `gb`-suffixed
segment sets the memory to `N*1024` MB; when no tag qualifies the defaults
vCPU=2, memory=4096 MB are returned. -/
theorem C4_amended :
    (∀ tags : List String,
        (∀ tag ∈ tags, ¬(goContains tag "cpu" = true ∧ goContains tag "gb" = true)) →
        parseVMRequirements tags = (2, 4096)) ∧
    parseVMRequirements ["firecracker-4cpu-8gb"] = (4, 8192) ∧
    parseVMRequirements ["actuated-16cpu-32gb", "linux"] = (16, 32768) := by
  refine ⟨fun tags h => ?_, by decide, by decide⟩
  unfold parseVMRequirements
  exact foldl_parseTagStep_skip tags (2, 4096) h

/-- Witness for C4: a job tagged only `docker` gets the default sizing. -/
theorem C4_amended_witness : parseVMRequirements ["docker"] = (2, 4096) :=
  C4_amended.1 ["docker"] (by decide)

/-! ## C7 — job monitor -/

/-- A failure-classified status is also completion-classified, which makes
the `isJobFailed` arm of the loop unreachable. -/
theorem isJobFailed_imp_isJobComplete (st : String)
    (h : isJobFailed st = true) : isJobComplete st = true := by
  unfold isJobFailed at h
  rcases (by simpa using h : st = "failed" ∨ st = "canceled") with h' | h' <;>
    (subst h'; decide)

/-- Claim C7: polling errors never terminate the monitoring loop, and when
the loop returns it yields either a job in a terminal CI status with no
error, or no job together with the context's error; no other return shape
occurs. -/
theorem C7_monitor_return_shape :
    (∀ rest : List PollStep,
        waitForJobCompletion (.pollErr :: rest) = waitForJobCompletion rest) ∧
    (∀ (steps : List PollStep) (r : Option String × Option String),
        waitForJobCompletion steps = some r →
        (∃ st, r = (some st, none) ∧ isJobComplete st = true) ∨
        (∃ e, r = (none, some e))) := by
  refine ⟨fun rest => rfl, fun steps => ?_⟩
  induction steps with
  | nil => intro r h; cases h
  | cons s rest ih =>
      intro r h
      cases s with
      | ctxDone e =>
          right
          exact ⟨e, by simpa [waitForJobCompletion] using h.symm⟩
      | pollErr => exact ih r h
      | poll st =>
          by_cases hc : isJobComplete st = true
          · left
            refine ⟨st, ?_, hc⟩
            simp [waitForJobCompletion, hc] at h
            exact h.symm
          · by_cases hf : isJobFailed st = true
            · exact absurd (isJobFailed_imp_isJobComplete st hf) hc
            · simp only [waitForJobCompletion, if_neg hc, if_neg hf] at h
              exact ih r h

/-- Witness for C7: after one swallowed polling error, a `success` poll
returns the terminal job with no error. -/
theorem C7_witness :
    (∃ st, ((some "success", none) : Option String × Option String) = (some st, none) ∧
           isJobComplete st = true) ∨
    (∃ e, ((some "success", none) : Option String × Option String) = (none, some e)) :=
  C7_monitor_return_shape.2 [.pollErr, .poll "success"] (some "success", none) (by decide)

/-! ## C8 — destroying a VM twice -/

/-- Claim C8: for a VM present in the registry, the first `DestroyVM`
succeeds and removes exactly that VM; a second call fails with the
VM-not-found error and leaves the registry unchanged. -/
theorem C8_destroyVM_twice (vms : List (String × MicroVM)) (vmID : String) (vm : MicroVM)
    (h : lookupVM vms vmID = some vm) :
    (destroyVM true vms vmID).1 = .ok () ∧
    lookupVM (destroyVM true vms vmID).2 vmID = none ∧
    (∀ k, k ≠ vmID → lookupVM (destroyVM true vms vmID).2 k = lookupVM vms k) ∧
    (∀ b : Bool,
      (destroyVM b (destroyVM true vms vmID).2 vmID).1 =
        .error ("VM " ++ vmID ++ " not found") ∧
      (destroyVM b (destroyVM true vms vmID).2 vmID).2 = (destroyVM true vms vmID).2) := by
  have h1 : destroyVM true vms vmID = (.ok (), untrackVM vms vmID) := by
    unfold destroyVM
    rw [h]
    rfl
  have h2 : lookupVM (untrackVM vms vmID) vmID = none := lookupVM_untrack_self vms vmID
  refine ⟨by rw [h1], by rw [h1]; exact h2, ?_, ?_⟩
  · intro k hk
    rw [h1]
    exact lookupVM_untrack_ne vms vmID k hk
  · intro b
    rw [h1]
    constructor <;> (unfold destroyVM; rw [h2])

/-- Witness for C8 at a one-entry registry. -/
theorem C8_witness :
    (destroyVM true [("vm-1-x", MicroVM.mk "vm-1-x" "firerunner" "running" "10.0.0.2")]
        "vm-1-x").1 = .ok () ∧
    lookupVM (destroyVM true [("vm-1-x", MicroVM.mk "vm-1-x" "firerunner" "running" "10.0.0.2")]
        "vm-1-x").2 "vm-1-x" = none ∧
    (∀ k, k ≠ "vm-1-x" →
      lookupVM (destroyVM true [("vm-1-x", MicroVM.mk "vm-1-x" "firerunner" "running" "10.0.0.2")]
          "vm-1-x").2 k =
      lookupVM [("vm-1-x", MicroVM.mk "vm-1-x" "firerunner" "running" "10.0.0.2")] k) ∧
    (∀ b : Bool,
      (destroyVM b (destroyVM true
          [("vm-1-x", MicroVM.mk "vm-1-x" "firerunner" "running" "10.0.0.2")] "vm-1-x").2
          "vm-1-x").1 = .error ("VM " ++ "vm-1-x" ++ " not found") ∧
      (destroyVM b (destroyVM true
          [("vm-1-x", MicroVM.mk "vm-1-x" "firerunner" "running" "10.0.0.2")] "vm-1-x").2
          "vm-1-x").2 =
      (destroyVM true [("vm-1-x", MicroVM.mk "vm-1-x" "firerunner" "running" "10.0.0.2")]
          "vm-1-x").2) :=
  C8_destroyVM_twice _ _ (MicroVM.mk "vm-1-x" "firerunner" "running" "10.0.0.2") (by decide)

/-! ## C9 — constant-time comparison -/

/-- Claim C9 (counterexample). The basic webhook handler compares the
supplied `X-Gitlab-Token` against the secret with Go's `==` (webhook.go
line 105), a short-circuit comparison: for two rejected tokens of equal
length, the number of byte comparisons differs with the length of the
matching prefix, so the comparison is not constant-time. -/
theorem C9_counterexample :
    ("xbc" : String).data.length = ("abx" : String).data.length ∧
    ("xbc" : String) ≠ "abc" ∧ ("abx" : String) ≠ "abc" ∧
    tokenCompareCost "abc" "xbc" = 1 ∧
    tokenCompareCost "abc" "abx" = 3 ∧
    tokenCompareCost "abc" "xbc" ≠ tokenCompareCost "abc" "abx" := by decide

/-- Claim C9 (amended): only the hardened `SecureWebhookHandler` compares
the shared-secret header in constant time (`subtle.ConstantTimeCompare`),
and the HMAC digest comparisons (`hmac.Equal`, `subtle.ConstantTimeCompare`)
are constant-time: their work depends only on the lengths of the inputs,
never on how many leading characters match.  The basic handler's own token
comparison is short-circuit (see the counterexample). -/
theorem C9_amended :
    (∀ s t1 t2 : String, t1.data.length = t2.data.length →
        secureTokenCompareCost s t1 = secureTokenCompareCost s t2) ∧
    (∀ d1 d2 e : List Char, d1.length = d2.length →
        hmacEqualCost d1 e = hmacEqualCost d2 e) := by
  constructor
  · intro s t1 t2 h
    unfold secureTokenCompareCost constantTimeCompareCost
    rw [h]
  · intro d1 d2 e h
    unfold hmacEqualCost constantTimeCompareCost
    rw [h]

/-- Witness for C9: two equal-length tokens cost the same under the
hardened handler's comparison. -/
theorem C9_amended_witness :
    secureTokenCompareCost "abc" "xbc" = secureTokenCompareCost "abc" "abx" :=
  C9_amended.1 "abc" "xbc" "abx" (by decide)

/-! ## C10 — empty secret skips verification -/

/-- Claim C10: with no configured secret, `verifySignature` accepts every
request — whatever the token or signature headers hold — and a POST
proceeds directly to event processing. -/
theorem C10_empty_secret_skips (jd pd : String → α → Except String α)
    (reg : α) (r : Request) (hm : r.method = "POST") :
    verifySignature "" r = true ∧
    serveHTTP "" jd pd reg r = serveAfterVerify jd pd reg r ∧
    (serveHTTP "" jd pd reg r).1 ≠ 401 := by
  have hv : verifySignature "" r = true := rfl
  have hserve : serveHTTP "" jd pd reg r = serveAfterVerify jd pd reg r := by
    unfold serveHTTP
    rw [hm]
    simp [hv]
  refine ⟨hv, hserve, ?_⟩
  rw [hserve]
  unfold serveAfterVerify
  by_cases he : r.gitlabEvent = ""
  · simp [he]
  · rw [if_neg he]
    cases processEvent jd pd r.gitlabEvent r.body reg <;> simp

/-- Concrete dispatch functions over a `Nat` registry, used by witnesses:
a job event grows the registry, a pipeline event leaves it alone. -/
def jobDispatchCount : String → Nat → Except String Nat := fun _ n => .ok (n + 1)

def pipeDispatchNop : String → Nat → Except String Nat := fun _ n => .ok n

/-- A POST request with an arbitrary token and no configured secret. -/
def reqNoSecret : Request :=
  { method := "POST", hasTLS := false, remoteAddr := "203.0.113.5:4242"
    contentLength := 1, gitlabToken := "anything", gitlabSignature := ""
    hubSignature256 := "", gitlabEvent := "Job Hook", body := "x" }

/-- Witness for C10 at a concrete POST request. -/
theorem C10_witness :
    verifySignature "" reqNoSecret = true ∧
    serveHTTP "" jobDispatchCount pipeDispatchNop 0 reqNoSecret =
      serveAfterVerify jobDispatchCount pipeDispatchNop 0 reqNoSecret ∧
    (serveHTTP "" jobDispatchCount pipeDispatchNop 0 reqNoSecret).1 ≠ 401 :=
  C10_empty_secret_skips jobDispatchCount pipeDispatchNop 0 reqNoSecret rfl

/-! ## C3 — queue-full rejection -/

/-- A job event whose build ID collides with an already-tracked job. -/
def jobEvC3 : JobEvent := { buildID := 1, projectID := 9, buildTags := ["firecracker"], buildStatus := "pending" }

/-- Claim C3 (counterexample). `trackJob` overwrites any tracked job with
the same build ID and the queue-full path then deletes that key, so when a
job with the same ID was already in the registry (a webhook retry), the
registry after the failed call is not the registry from before it: the
pre-existing entry is gone. -/
theorem C3_counterexample :
    (scheduleJob false [(1, newJob jobEvC3)] [] jobEvC3).1 =
      .error "job queue is full, cannot schedule job 1" ∧
    (scheduleJob false [(1, newJob jobEvC3)] [] jobEvC3).2.2.2 = true ∧
    (scheduleJob false [(1, newJob jobEvC3)] [] jobEvC3).2.1 = [] ∧
    ([] : List (Int × Job)) ≠ [(1, newJob jobEvC3)] := by decide

/-- Claim C3 (amended): when the queue stays full for 5 s, `ScheduleJob`
cancels the job's token, deletes the job from the registry and fails with
the queue-full error; *provided no job with the same build ID was already
tracked*, the registry after the call equals the registry before it (in
general the call deletes any previously tracked job under that ID). -/
theorem C3_queue_full (jobs : List (Int × Job)) (queue : List Int) (event : JobEvent)
    (hfresh : ∀ p ∈ jobs, p.1 ≠ event.buildID) :
    scheduleJob false jobs queue event =
      (.error ("job queue is full, cannot schedule job " ++ toString event.buildID),
       jobs, queue, true) := by
  unfold scheduleJob
  simp only [if_neg (by simp : ¬False)]
  have hid : (newJob event).id = event.buildID := rfl
  unfold untrackJob trackJob
  rw [hid]
  rw [List.filter_cons]
  simp only [bne_self_eq_false, if_neg]
  rw [List.filter_filter]
  have : (fun p : Int × Job => p.1 != event.buildID && p.1 != event.buildID) =
      (fun p : Int × Job => p.1 != event.buildID) := by
    funext p
    cases p.1 != event.buildID <;> rfl
  rw [this, filter_bne_eq_self jobs event.buildID hfresh]
  simp

/-- Witness for C3 on an empty registry. -/
theorem C3_witness :
    scheduleJob false [] []
        { buildID := 6, projectID := 2, buildTags := [], buildStatus := "pending" } =
      (.error "job queue is full, cannot schedule job 6", [], [], true) :=
  C3_queue_full [] [] _ (by decide)

/-! ## C5 — invalid secret on the basic handler -/

/-- Claim C5 (amended): a webhook POST whose secret header does not match
the configured non-empty secret *and which carries no valid
`X-Gitlab-Signature` HMAC header* is answered 401 with the job registry
unchanged.  (The original claim omitted the HMAC escape hatch; see the
counterexample.) -/
theorem C5_invalid_secret {α : Type} (jd pd : String → α → Except String α)
    (reg : α) (secret : String) (r : Request)
    (hs : secret ≠ "") (hm : r.method = "POST") (ht : r.gitlabToken ≠ secret)
    (hsig : r.gitlabSignature = "" ∨ verifyHMAC secret r.body r.gitlabSignature = false) :
    serveHTTP secret jd pd reg r = (401, reg) := by
  have hv : verifySignature secret r = false := by
    unfold verifySignature
    rw [if_neg hs]
    by_cases h0 : r.gitlabToken = ""
    · rw [if_pos h0]
    · rw [if_neg h0, if_neg ht]
      rcases hsig with h | h
      · rw [if_neg (by simp [h])]
      · by_cases h1 : r.gitlabSignature ≠ ""
        · rw [if_pos h1]
          exact h
        · rw [if_neg h1]
  unfold serveHTTP
  rw [hm]
  simp [hv]

/-- A POST whose token mismatches the secret `"abc"` but whose
`X-Gitlab-Signature` header holds the correct HMAC-SHA256 hex digest of
the body `"hello"` under that secret. -/
def reqC5 : Request :=
  { method := "POST", hasTLS := false, remoteAddr := "198.51.100.7:55555"
    contentLength := 5, gitlabToken := "xyz"
    gitlabSignature := "f3166a3a404599d2046ed2aae479b37d54b51d2e85259c9e314042753be7d813"
    hubSignature256 := "", gitlabEvent := "", body := "hello" }

set_option maxRecDepth 1000000 in
/-- Claim C5 (counterexample). A POST whose `X-Gitlab-Token` header does
not match the non-empty secret is *not* answered 401 when it carries a
valid `X-Gitlab-Signature` HMAC: verification falls through to the HMAC
check, which passes, and the request proceeds (here to the 400 for its
missing event header). -/
theorem C5_counterexample :
    reqC5.method = "POST" ∧ reqC5.gitlabToken ≠ "abc" ∧ ("abc" : String) ≠ "" ∧
    (serveHTTP "abc" jobDispatchCount pipeDispatchNop 0 reqC5).1 = 400 ∧
    (400 : Nat) ≠ 401 := by decide

/-- A POST with a wrong token and no HMAC signature header at all. -/
def reqC5w : Request :=
  { method := "POST", hasTLS := false, remoteAddr := "198.51.100.7:55555"
    contentLength := 1, gitlabToken := "xyz", gitlabSignature := ""
    hubSignature256 := "", gitlabEvent := "Job Hook", body := "x" }

/-- Witness for C5: the signature-free mismatching POST gets 401 and the
registry value 0 is returned unchanged. -/
theorem C5_witness :
    serveHTTP "abc" jobDispatchCount pipeDispatchNop 0 reqC5w = (401, 0) :=
  C5_invalid_secret jobDispatchCount pipeDispatchNop 0 "abc" reqC5w
    (by decide) rfl (by decide) (Or.inl rfl)

/-! ## C6 — order of the security checks -/

/-- The flat check order the hardened endpoint actually implements, written
as a single decision list (refinement reference for C6): transport, IP
allow-list, rate limit, body size, secret verification, *then* the method
check, a second secret verification by the inner handler, and the
event-type check. -/
def secureOrderSpec {α : Type} (cfg : SecurityConfig) (minuteElapsed : Bool)
    (counts : List (String × Nat)) (jd pd : String → α → Except String α)
    (reg : α) (r : Request) : Nat :=
  if cfg.requireSSL ∧ ¬ r.hasTLS then 403
  else if ¬ isIPAllowed cfg.allowedIPs r.remoteAddr then 403
  else if ¬ (checkRateLimit cfg.rateLimitPerMinute minuteElapsed counts r.remoteAddr).1 then 429
  else if r.contentLength > cfg.maxBodySize then 413
  else if cfg.requireSecret ∧ cfg.secret ≠ "" ∧ ¬ secureVerifySignature cfg.secret r then 401
  else if r.method ≠ "POST" then 405
  else if ¬ verifySignature cfg.secret r then 401
  else if r.gitlabEvent = "" then 400
  else
    match processEvent jd pd r.gitlabEvent r.body reg with
    | .error _ => 500
    | .ok _ => 200

/-- Claim C6 (amended): the hardened handler applies its checks in the
fixed order transport, IP allow-list, rate limit, body-size cap, secret
verification, method check, a second (inner) secret verification,
event-type check, and responds with the first failing check's code — the
secret check precedes the method check, not the other way around. -/
theorem C6_check_order {α : Type} (cfg : SecurityConfig) (minuteElapsed : Bool)
    (counts : List (String × Nat)) (jd pd : String → α → Except String α)
    (reg : α) (r : Request) :
    (secureServeHTTP cfg minuteElapsed counts jd pd reg r).1 =
      secureOrderSpec cfg minuteElapsed counts jd pd reg r := by
  unfold secureServeHTTP secureOrderSpec serveHTTP serveAfterVerify
  dsimp only
  split_ifs <;>
    first
      | rfl
      | (cases processEvent jd pd r.gitlabEvent r.body reg <;> rfl)

/-- A GET request whose token also mismatches the secret `"abc"`. -/
def reqC6 : Request :=
  { method := "GET", hasTLS := false, remoteAddr := "203.0.113.5:4242"
    contentLength := 1, gitlabToken := "xyz", gitlabSignature := ""
    hubSignature256 := "", gitlabEvent := "Job Hook", body := "x" }

/-- Claim C6 (counterexample). The claim places the method check before
secret verification and concludes that a non-POST request with an invalid
secret receives 405; on the hardened handler the secret is verified first,
so such a request receives 401. -/
theorem C6_counterexample :
    reqC6.method ≠ "POST" ∧
    reqC6.gitlabToken ≠ (defaultSecurityConfig "abc").secret ∧
    (secureServeHTTP (defaultSecurityConfig "abc") false [] jobDispatchCount
        pipeDispatchNop 0 reqC6).1 = 401 ∧
    (401 : Nat) ≠ 405 := by decide

/-! ## Worker lifecycle lemmas (C1, C2) -/

/-- `updateJobStatus` with `"running"` on a never-started job stamps
`startedAt` and only that. -/
theorem updateJobStatus_running (now : Nat) (j : Job) (hs : j.startedAt = none) :
    updateJobStatus now j "running" =
      { j with status := "running", startedAt := some now } := by
  unfold updateJobStatus
  rw [if_pos ⟨rfl, hs⟩]

/-- `updateJobStatus` with `"failed"` stamps `finishedAt`. -/
theorem updateJobStatus_failed (now : Nat) (j : Job) :
    updateJobStatus now j "failed" =
      { j with status := "failed", finishedAt := some now } := by
  unfold updateJobStatus
  rw [if_neg (by simp), if_pos (by simp)]

/-- `updateJobStatus` with `"finished"` stamps `finishedAt`. -/
theorem updateJobStatus_finished (now : Nat) (j : Job) :
    updateJobStatus now j "finished" =
      { j with status := "finished", finishedAt := some now } := by
  unfold updateJobStatus
  rw [if_neg (by simp), if_pos (by simp)]

/-- Cleanup only filters the runner set; which filter applies depends on
the recorded runner and the unregister RPC outcome. -/
theorem cleanupVM_runners (env : WorkerEnv) (w : World) (j : Job) :
    (cleanupVM env w j).runners =
      if j.runnerID > 0 ∧ env.unregisterOk = true
      then w.runners.filter (fun r => r != j.runnerID)
      else w.runners := by
  unfold cleanupVM
  dsimp only
  split_ifs <;> first | rfl | tauto

/-- Cleanup's effect on the VM registry: destroy the recorded VM, if any. -/
theorem cleanupVM_vms (env : WorkerEnv) (w : World) (j : Job) :
    (cleanupVM env w j).vms =
      if j.vmid = "" then w.vms else (destroyVM env.deleteOk w.vms j.vmid).2 := by
  unfold cleanupVM
  dsimp only
  split_ifs <;> first | rfl | tauto

/-- A successful destroy leaves no registry entry under the VM's ID,
whether or not one was present. -/
theorem lookupVM_destroy_self (vms : List (String × MicroVM)) (vmID : String) :
    lookupVM (destroyVM true vms vmID).2 vmID = none := by
  unfold destroyVM
  cases hl : lookupVM vms vmID with
  | none => simpa using hl
  | some vm => simpa using lookupVM_untrack_self vms vmID

/-! ## C2 — status state machine

Status writes go through `schedulerUpdateJobStatus`, i.e. through the
registry: they land on whatever object the registry currently maps the
build ID to.  `trackJob` overwrites that entry on a duplicate
`ScheduleJob` for the same build ID, after which the processing worker's
terminal write lands on the fresh queued duplicate — which a second worker
later moves back to `running` and re-stamps. -/

/-- A job event for build 1 with no sizing tags. -/
def evDup : JobEvent :=
  { buildID := 1, projectID := 9, buildTags := [], buildStatus := "pending" }

/-- Registry after `ScheduleJob` admits build 1. -/
def regA : List (Int × Job) := (scheduleJob true [] [] evDup).2.1

/-- ... after the first worker dequeues it and stamps `running` (time 1). -/
def regB : List (Int × Job) := schedulerUpdateJobStatus 1 regA 1 "running"

/-- ... after a webhook retry re-schedules build 1: `trackJob` replaces the
registry entry with a fresh queued job. -/
def regC : List (Int × Job) := (scheduleJob true regB [1] evDup).2.1

/-- ... after the first worker's terminal write (time 2), which now lands
on the queued duplicate. -/
def regD : List (Int × Job) := schedulerUpdateJobStatus 2 regC 1 "failed"

/-- ... after the second worker dequeues the duplicate and stamps
`running` (time 3). -/
def regE : List (Int × Job) := schedulerUpdateJobStatus 3 regD 1 "running"

/-- ... after the duplicate's own terminal write (time 4). -/
def regF : List (Int × Job) := schedulerUpdateJobStatus 4 regE 1 "finished"

/-- Claim C2 (counterexample). A sequential duplicate-schedule trace — no
race needed: build 1 is admitted, a worker marks it `running`, a webhook
retry re-schedules build 1 (overwriting the registry entry with a fresh
queued job), the first worker's terminal write stamps that duplicate
`failed` with `finishedAt = 2`; when a second worker dequeues the
duplicate, the registry job transitions `failed → running` — out of a
terminal state — and its eventual terminal write re-stamps `finishedAt`
to 4.  So a terminal status is not immutable and `finishedAt` is stamped
twice. -/
theorem C2_counterexample :
    (lookupJob regD 1).map Job.status = some "failed" ∧
    (lookupJob regD 1).map Job.finishedAt = some (some 2) ∧
    (lookupJob regE 1).map Job.status = some "running" ∧
    (lookupJob regF 1).map Job.status = some "finished" ∧
    (lookupJob regF 1).map Job.finishedAt = some (some 4) ∧
    (some (some 4) : Option (Option Nat)) ≠ some (some 2) := by decide

/-- Claim C2 (amended): the worker issues exactly the status updates
`running` then one terminal status; and *provided the job's registry entry
is not replaced by a duplicate `ScheduleJob` between those writes*,
applying them through the registry (`schedulerUpdateJobStatus`) moves the
entry queued → running → terminal, stamping `startedAt` at the `running`
write and `finishedAt` exactly once, at the terminal write.  When a
duplicate schedule does replace the entry, the terminal write lands on the
fresh queued job, which can later transition `failed → running` and have
`finishedAt` re-stamped (see the counterexample). -/
theorem C2_status_registry (env : WorkerEnv) (w : World)
    (jobs : List (Int × Job)) (jobID : Int) (j0 : Job)
    (hj : lookupJob jobs jobID = some j0)
    (hq : j0.status = "queued") (hs : j0.startedAt = none)
    (hf : j0.finishedAt = none) (he : j0.err = none) :
    (∃ t, (t = "finished" ∨ t = "failed") ∧
       (processJob env w j0).2.2 = ["running", t]) ∧
    (∀ t, (t = "finished" ∨ t = "failed") →
      lookupJob (schedulerUpdateJobStatus 2
          (schedulerUpdateJobStatus 1 jobs jobID "running") jobID t) jobID =
        some { j0 with status := t, startedAt := some 1, finishedAt := some 2 }) := by
  constructor
  · cases hc : env.createResult with
    | error e =>
        refine ⟨"failed", Or.inr rfl, ?_⟩
        simp [processJob, managerCreateVM, hc]
    | ok vm =>
        cases hr : env.registerResult with
        | error e =>
            refine ⟨"failed", Or.inr rfl, ?_⟩
            simp [processJob, managerCreateVM, hc, hr]
        | ok rid =>
            cases hmon : env.monitorResult with
            | error e =>
                refine ⟨"failed", Or.inr rfl, ?_⟩
                simp [processJob, managerCreateVM, workerWait, hc, hr, hmon,
                  updateJobStatus_running 1 j0 hs, he]
            | ok st =>
                by_cases hst : st = "success"
                · refine ⟨"finished", Or.inl rfl, ?_⟩
                  simp [processJob, managerCreateVM, workerWait, hc, hr, hmon, hst,
                    updateJobStatus_running 1 j0 hs, he]
                · refine ⟨"failed", Or.inr rfl, ?_⟩
                  simp [processJob, managerCreateVM, workerWait, hc, hr, hmon, hst,
                    updateJobStatus_running 1 j0 hs, he]
  · intro t ht
    have h1 : schedulerUpdateJobStatus 1 jobs jobID "running" =
        (jobID, updateJobStatus 1 j0 "running") ::
          jobs.filter (fun p => p.1 != jobID) := by
      unfold schedulerUpdateJobStatus
      rw [hj]
    have hlook : lookupJob ((jobID, updateJobStatus 1 j0 "running") ::
        jobs.filter (fun p => p.1 != jobID)) jobID =
        some (updateJobStatus 1 j0 "running") := by
      unfold lookupJob
      rw [List.find?_cons_of_pos _ (by simp)]
      rfl
    have h2 : schedulerUpdateJobStatus 2
        (schedulerUpdateJobStatus 1 jobs jobID "running") jobID t =
        (jobID, updateJobStatus 2 (updateJobStatus 1 j0 "running") t) ::
          ((jobID, updateJobStatus 1 j0 "running") ::
            jobs.filter (fun p => p.1 != jobID)).filter (fun p => p.1 != jobID) := by
      rw [h1]
      unfold schedulerUpdateJobStatus
      rw [hlook]
    rw [h2]
    unfold lookupJob
    rw [List.find?_cons_of_pos _ (by simp)]
    rcases ht with h | h <;> subst h
    · rw [updateJobStatus_running 1 j0 hs, updateJobStatus_finished]
      rfl
    · rw [updateJobStatus_running 1 j0 hs, updateJobStatus_failed]
      rfl

/-- The all-success worker environment. -/
def vmOK : MicroVM :=
  { id := "vm-42-aaaa1111", ns := "firerunner", state := "running", ipAddress := "10.0.0.9" }

def envOK : WorkerEnv :=
  { createResult := .ok vmOK, registerResult := .ok 7, monitorResult := .ok "success"
    unregisterOk := true, deleteOk := true }

/-- The queued job the scheduler would build for build 42. -/
def queuedJob42 : Job :=
  newJob { buildID := 42, projectID := 7, buildTags := [], buildStatus := "pending" }

/-- Witness for C2: build 42 alone in the registry, all-success worker. -/
theorem C2_witness :
    (∃ t, (t = "finished" ∨ t = "failed") ∧
       (processJob envOK ⟨[], []⟩ queuedJob42).2.2 = ["running", t]) ∧
    (∀ t, (t = "finished" ∨ t = "failed") →
      lookupJob (schedulerUpdateJobStatus 2
          (schedulerUpdateJobStatus 1 [(42, queuedJob42)] 42 "running") 42 t) 42 =
        some { queuedJob42 with status := t, startedAt := some 1, finishedAt := some 2 }) :=
  C2_status_registry envOK ⟨[], []⟩ [(42, queuedJob42)] 42 queuedJob42
    (by decide) rfl rfl rfl rfl

/-! ## C1 — terminal jobs and their resources -/

/-- Claim C1 (counterexample). On the all-success path the job reaches the
terminal state `finished` after cleanup, yet its `VM` field still points at
the (destroyed) VM and its `RunnerID` is still 7: `processJob` never nulls
either field, so the claimed `vm == null ∧ runnerID == 0` fails. -/
theorem C1_counterexample :
    (processJob envOK ⟨[], []⟩ queuedJob42).1.status = "finished" ∧
    (processJob envOK ⟨[], []⟩ queuedJob42).1.vm = some vmOK ∧
    (processJob envOK ⟨[], []⟩ queuedJob42).1.runnerID = 7 ∧
    ¬((processJob envOK ⟨[], []⟩ queuedJob42).1.vm = none ∧
      (processJob envOK ⟨[], []⟩ queuedJob42).1.runnerID = 0) := by decide

/-- Claim C1 (amended): when the cleanup RPCs succeed, a job that reaches a
terminal state holds no *live* resources — the runner registration recorded
on the job is gone from the CI platform and the VM recorded on the job is
gone from the VM manager registry — but the job's `VM` and `RunnerID`
*fields* retain their last values (the `VM` field stays non-null whenever a
VM was created). -/
theorem C1_terminal_resources (env : WorkerEnv) (w : World) (j0 : Job)
    (hdel : env.deleteOk = true) (hunreg : env.unregisterOk = true)
    (hrid : j0.runnerID = 0) (hvmid : j0.vmid = "") (hs : j0.startedAt = none)
    (he : j0.err = none) :
    ((processJob env w j0).1.status = "finished" ∨
     (processJob env w j0).1.status = "failed") ∧
    ((processJob env w j0).1.runnerID > 0 →
      (processJob env w j0).1.runnerID ∉ (processJob env w j0).2.1.runners) ∧
    ((processJob env w j0).1.vmid ≠ "" →
      lookupVM (processJob env w j0).2.1.vms (processJob env w j0).1.vmid = none) ∧
    (∀ vm, env.createResult = .ok vm → (processJob env w j0).1.vm = some vm) := by
  unfold processJob managerCreateVM workerWait
  cases hc : env.createResult with
  | error e =>
      refine ⟨?_, ?_, ?_, ?_⟩ <;>
        simp [updateJobStatus_running 1 j0 hs, updateJobStatus_failed, hrid, hvmid, he]
  | ok vm =>
      cases hr : env.registerResult with
      | error e =>
          refine ⟨?_, ?_, ?_, ?_⟩
          · simp [updateJobStatus_running 1 j0 hs, updateJobStatus_failed, he]
          · intro hpos
            simp [updateJobStatus_running 1 j0 hs, updateJobStatus_failed, he, hrid] at hpos
          · simp [updateJobStatus_running 1 j0 hs, updateJobStatus_failed, he, cleanupVM_vms]
            intro hv
            simp [hv, hdel, lookupVM_destroy_self]
          · intro vm2 hvm2
            injection hvm2 with hv2
            subst hv2
            simp [updateJobStatus_running 1 j0 hs, updateJobStatus_failed, he]
      | ok rid =>
          cases hmon : env.monitorResult with
          | error e =>
              refine ⟨?_, ?_, ?_, ?_⟩
              · simp [updateJobStatus_running 1 j0 hs, updateJobStatus_failed, he]
              · simp [updateJobStatus_running 1 j0 hs, updateJobStatus_failed, he,
                  cleanupVM_runners, hunreg]
                intro hpos
                simp [hpos]
              · simp [updateJobStatus_running 1 j0 hs, updateJobStatus_failed, he,
                  cleanupVM_vms]
                intro hv
                simp [hv, hdel, lookupVM_destroy_self]
              · intro vm2 hvm2
                injection hvm2 with hv2
                subst hv2
                simp [updateJobStatus_running 1 j0 hs, updateJobStatus_failed, he]
          | ok st =>
              by_cases hst : st = "success"
              · refine ⟨?_, ?_, ?_, ?_⟩
                · simp [hst, updateJobStatus_running 1 j0 hs, updateJobStatus_finished, he]
                · simp [hst, updateJobStatus_running 1 j0 hs, updateJobStatus_finished, he,
                    cleanupVM_runners, hunreg]
                  intro hpos
                  simp [hpos]
                · simp [hst, updateJobStatus_running 1 j0 hs, updateJobStatus_finished, he,
                    cleanupVM_vms]
                  intro hv
                  simp [hv, hdel, lookupVM_destroy_self]
                · intro vm2 hvm2
                  injection hvm2 with hv2
                  subst hv2
                  simp [hst, updateJobStatus_running 1 j0 hs, updateJobStatus_finished, he]
              · refine ⟨?_, ?_, ?_, ?_⟩
                · simp [hst, updateJobStatus_running 1 j0 hs, updateJobStatus_failed, he]
                · simp [hst, updateJobStatus_running 1 j0 hs, updateJobStatus_failed, he,
                    cleanupVM_runners, hunreg]
                  intro hpos
                  simp [hpos]
                · simp [hst, updateJobStatus_running 1 j0 hs, updateJobStatus_failed, he,
                    cleanupVM_vms]
                  intro hv
                  simp [hv, hdel, lookupVM_destroy_self]
                · intro vm2 hvm2
                  injection hvm2 with hv2
                  subst hv2
                  simp [hst, updateJobStatus_running 1 j0 hs, updateJobStatus_failed, he]

/-- Witness for C1 on the all-success environment. -/
theorem C1_witness :
    ((processJob envOK ⟨[], []⟩ queuedJob42).1.status = "finished" ∨
     (processJob envOK ⟨[], []⟩ queuedJob42).1.status = "failed") ∧
    ((processJob envOK ⟨[], []⟩ queuedJob42).1.runnerID > 0 →
      (processJob envOK ⟨[], []⟩ queuedJob42).1.runnerID ∉
        (processJob envOK ⟨[], []⟩ queuedJob42).2.1.runners) ∧
    ((processJob envOK ⟨[], []⟩ queuedJob42).1.vmid ≠ "" →
      lookupVM (processJob envOK ⟨[], []⟩ queuedJob42).2.1.vms
        (processJob envOK ⟨[], []⟩ queuedJob42).1.vmid = none) ∧
    (∀ vm, envOK.createResult = .ok vm →
      (processJob envOK ⟨[], []⟩ queuedJob42).1.vm = some vm) :=
  C1_terminal_resources envOK ⟨[], []⟩ queuedJob42 rfl rfl rfl rfl rfl rfl

/-! ## SHA-256 validation against FIPS 180-4 / RFC 4231 test vectors -/

set_option maxRecDepth 1000000 in
/-- FIPS 180-4 test vector: the SHA-256 digest of the empty message. -/
theorem sha256_empty_vector :
    bytesToHex (sha256 []) =
      "e3b0c44298fc1c149afbf4c8996fb92427ae41e4649b934ca495991b7852b855" := by decide

set_option maxRecDepth 1000000 in
/-- RFC 4231 test case 2: HMAC-SHA256 with key `Jefe`. -/
theorem hmacSha256_rfc4231_vector :
    hmacSha256Hex "Jefe" "what do ya want for nothing?" =
      "5bdcc146bf60754e6a042426089575c75a003f089d2739839dec58b964ec3843" := by decide

end Firerunner
